import Mathlib

/-!
Shallow embedding of the fault-barrier executor of `xgo` (src/xgo.go):
the functions `Require`, `Catch`, `Call` and `Async`, together with the
slice of the Go runtime semantics they rely on (panic/recover as modelled
by an explicit panic state, `fmt.Errorf` message construction,
`errors.Join`, `errors.Is`, and `sync.WaitGroup` counting).

Modelling conventions:
* A Go `error` value is `GoError`; a possibly-nil `error` variable is
  `Option GoError` (`none` = nil interface).
* A panic payload (`any`) is `PanicValue`: the nil interface, an error
  value, or any other value carried with its type name and its `%v`
  rendering (both opaque strings).
* `recover()` is modelled by `goRecover` on an explicit `PanicState`:
  it returns the in-flight payload (nil when no panic is in flight) and
  always clears the panicking state, as the Go runtime does when
  `recover` is called directly from a deferred function.  A nil payload
  passes through `recover` as the nil interface.
* A unit of work `func()` is observable only through its `Outcome`:
  normal return, or a panic with some payload.
* Concurrency in `Async` is modelled by interleaving the spawned
  goroutines' deferred `Catch(&err)` handlers over the one shared `err`
  slot, which the source accesses with no synchronization between
  handlers.  `Async` below serializes whole handlers, which is exact
  whenever at most one handler writes the slot; `asyncRace` models the
  general case at the granularity of the real shared-memory accesses
  (a handler's read of `*err` and its store to `*err` are separate
  steps, sequentially consistent), which admits the lost-update
  interleavings of two faulting handlers.  The `sync.WaitGroup` is a
  counter initialised to the number of goroutines and decremented once
  per `wg.Done()`.
-/

namespace Xgo

/-- A Go `error` value, as built by this library: a plain error carrying a
message (`errors.New` / `fmt.Errorf` without `%w`), a wrapping error as
built by `fmt.Errorf` with a `%w` verb on an error operand (message plus
an `Unwrap() error` cause), or a join of two errors as built by
`errors.Join(a, b)` on two non-nil errors (`Unwrap() []error`). -/
inductive GoError where
  | base (msg : String)
  | wrap (msg : String) (cause : GoError)
  | join (left : GoError) (right : GoError)
  deriving DecidableEq

/-- The `Error()` message of a `GoError`.  A join's message is its
children's messages separated by a newline, as in `errors.Join`. -/
def GoError.message : GoError → String
  | .base m => m
  | .wrap m _ => m
  | .join a b => a.message ++ "\n" ++ b.message

/-- `errors.Is(e, target)`: `e` matches, or a wrapped cause matches, or
(since joined errors expose `Unwrap() []error`) some join child matches. -/
def errorsIs (e target : GoError) : Bool :=
  if e = target then true
  else
    match e with
    | .base _ => false
    | .wrap _ c => errorsIs c target
    | .join a b => errorsIs a target || errorsIs b target

/-- A panic payload (`any`): the nil interface value, an error value, or
a non-error value carried with its Go type name and its `%v` rendering. -/
inductive PanicValue where
  | nilV
  | errV (e : GoError)
  | other (tyName : String) (vRepr : String)
  deriving DecidableEq

/-- The observable behaviour of a unit of work `func()`: it either
returns normally or panics with some payload. -/
inductive Outcome where
  | ok
  | panicked (p : PanicValue)
  deriving DecidableEq

/-- Whether a panic is in flight when a deferred handler starts. -/
inductive PanicState where
  | noPanic
  | inFlight (p : PanicValue)
  deriving DecidableEq

/-- `recover()` called directly from a deferred function: returns the
in-flight payload (the nil interface when no panic is in flight) and
always stops the panicking. -/
def goRecover : PanicState → PanicValue × PanicState
  | .noPanic => (.nilV, .noPanic)
  | .inFlight p => (p, .noPanic)

/-- The panic state in which the deferred handlers of a function start,
given the outcome of its body. -/
def outcomeState : Outcome → PanicState
  | .ok => .noPanic
  | .panicked p => .inFlight p

/-- The body of `Catch`'s guarded block acting on the pointed-to error
slot, given the recovered value `r` (src/xgo.go lines 82-91): a non-error
payload is replaced by `fmt.Errorf("%v", r)`, and a previous non-nil
slot value is merged with `errors.Join`.  A nil recovered value leaves
the slot untouched (the `r != nil` guard fails). -/
def CatchUpdate (r : PanicValue) (slot : Option GoError) : Option GoError :=
  match r with
  | .nilV => slot
  | .errV e =>
    match slot with
    | none => some e
    | some prev => some (.join prev e)
  | .other _ v =>
    match slot with
    | none => some (.base v)
    | some prev => some (.join prev (.base v))

/-- `Catch(err *error)` run as a deferred handler (src/xgo.go lines
81-92).  `ptr` is the `*error` argument: `none` is a nil pointer, and
`some slot` points at a variable currently holding `slot`.  `recover()`
is called unconditionally, so any in-flight panic is absorbed; the slot
is written only when both the recovered value and the pointer are
non-nil. -/
def Catch (ps : PanicState) (ptr : Option (Option GoError)) :
    PanicState × Option (Option GoError) :=
  let r := goRecover ps
  match r.1, ptr with
  | .nilV, _ => (r.2, ptr)
  | _, none => (r.2, ptr)
  | rv, some slot => (r.2, some (CatchUpdate rv slot))

/-- What a call of `Call` does from its caller's point of view: return an
error value (possibly nil), or let a panic escape. -/
inductive CallResult where
  | returns (err : Option GoError)
  | repanics (p : PanicValue)
  deriving DecidableEq

/-- `Call(fn)` (src/xgo.go lines 100-104): the named result `err` starts
at its zero value nil, `fn` runs, then the deferred `Catch(&err)` runs in
the resulting panic state; if the panic state is still in flight after
the deferred handler the panic escapes, otherwise the current value of
`err` is returned. -/
def Call (fn : Outcome) : CallResult :=
  let s := Catch (outcomeState fn) (some none)
  match s.1 with
  | .inFlight p => .repanics p
  | .noPanic => .returns (s.2.getD none)

/-- `Require(statement, err)` (src/xgo.go lines 73-78): when the
statement is false it panics with `fmt.Errorf("%w\n\t%s:%d", err, file,
line)`.  `loc` stands for the caller's `file:line`.  When the payload is
an error, `%w` wraps it and the message prefixes its own message; when
the payload does not implement `error`, `fmt` renders the `%w` verb as
the bad-verb text `%!w(type=value)` and the resulting error wraps
nothing. -/
def Require (statement : Bool) (payload : PanicValue) (loc : String) : Outcome :=
  if statement then .ok
  else
    .panicked (.errV
      (match payload with
      | .errV e => .wrap (e.message ++ "\n\t" ++ loc) e
      | .other ty v => .base ("%!w(" ++ ty ++ "=" ++ v ++ ")" ++ "\n\t" ++ loc)
      | .nilV => .base ("%!w(<nil>)" ++ "\n\t" ++ loc)))

/-- The value `recover()` yields inside a deferred handler of a function
whose body had this outcome. -/
def recoverOf : Outcome → PanicValue
  | .ok => .nilV
  | .panicked p => p

/-- `Async(fn...)` (src/xgo.go lines 112-124): every unit of work runs in
its own goroutine with `defer wg.Done(); defer Catch(&err)` over the one
shared `err` slot.  `handlers` is the launched outcomes arranged in the
order in which their deferred `Catch(&err)` handlers happen to execute,
each handler taken as one atomic step; theorems quantify over all
permutations of the launch list.  This whole-handler serialization is
exact whenever at most one handler writes the slot (a handler whose
goroutine did not panic recovers nil and never touches `err`); for two
faulting handlers the finer-grained `asyncRace` below exposes the
unsynchronized slot accesses.  The shared slot starts at nil and the
final slot value is returned after the join. -/
def Async (handlers : List Outcome) : Option GoError :=
  handlers.foldl (fun slot o => CatchUpdate (recoverOf o) slot) none

/-- The phases of the shared-slot critical section of one faulting
goroutine's deferred `Catch(&err)` handler inside `Async`: the handler
has still to read `*err` (the `if *err != nil` test and the
`errors.Join(*err, e)` argument), or has read it and computed the value
`e` it is about to store, or has performed its store `*err = e` and is
finished.  Each handler reads the slot at most once before its single
write; with two handlers the test's read and the join's read cannot be
separated by the other handler's write (a non-nil test requires that
write to have already happened), so one read step per handler is exact. -/
inductive HandlerPhase where
  | toRead
  | toWrite (e : GoError)
  | done
  deriving DecidableEq

/-- One scheduler step of a faulting handler whose recovered payload was
converted to the error `payloadErr` (src/xgo.go lines 83-90): the read
step computes the value to store — `payloadErr` itself on a nil slot,
`errors.Join(*err, payloadErr)` otherwise — and the write step stores
it.  A finished handler leaves the slot alone. -/
def handlerStep (payloadErr : GoError) :
    HandlerPhase → Option GoError → HandlerPhase × Option GoError
  | .toRead, slot =>
    (.toWrite (match slot with
      | none => payloadErr
      | some prev => .join prev payloadErr), slot)
  | .toWrite e, _ => (.done, some e)
  | .done, slot => (.done, slot)

/-- One interleaving step of `Async`'s two deferred handlers when both
units of work panicked with the errors `eA` and `eB`: the scheduler
picks the second handler when `who` is true, the first otherwise. -/
def raceStep (eA eB : GoError)
    (s : HandlerPhase × HandlerPhase × Option GoError) (who : Bool) :
    HandlerPhase × HandlerPhase × Option GoError :=
  if who then
    let r := handlerStep eB s.2.1 s.2.2
    (s.1, r.1, r.2)
  else
    let r := handlerStep eA s.1 s.2.2
    (r.1, s.2.1, r.2)

/-- Fine-grained execution of `Async` on two units of work that both
panicked with errors (`eA`, `eB`), at the granularity of the real
unsynchronized accesses to the shared `err` slot: `sched` lists which
handler takes each next step.  Both handlers start before their read and
the shared slot starts at nil; the result is both handlers' phases and
the final slot. -/
def asyncRace (eA eB : GoError) (sched : List Bool) :
    HandlerPhase × HandlerPhase × Option GoError :=
  sched.foldl (raceStep eA eB) (.toRead, .toRead, none)

/-- A schedule under which both handlers have finished: only then do
both `wg.Done()` calls run, `wg.Wait()` unblock, and `Async` return the
slot's value. -/
def asyncRaceDone (eA eB : GoError) (sched : List Bool) : Prop :=
  (asyncRace eA eB sched).1 = .done ∧ (asyncRace eA eB sched).2.1 = .done

/-- Invariant of the interleaved two-handler execution: any stored slot
value references one of the two faults, a handler's pending value
references its own fault, and a finished handler guarantees the slot is
non-nil (stores never write nil and each handler stores before
finishing). -/
def raceInv (eA eB : GoError)
    (s : HandlerPhase × HandlerPhase × Option GoError) : Prop :=
  (∀ e, s.2.2 = some e → errorsIs e eA = true ∨ errorsIs e eB = true) ∧
  (∀ e, s.1 = .toWrite e → errorsIs e eA = true) ∧
  (∀ e, s.2.1 = .toWrite e → errorsIs e eB = true) ∧
  (s.1 = .done → s.2.2 ≠ none) ∧
  (s.2.1 = .done → s.2.2 ≠ none)

/-- The `sync.WaitGroup` of `Async`: the counter starts at `n` (one
`wg.Add(len(fn))`) and each goroutine decrements it exactly once via its
deferred `wg.Done()`.  `wg.Wait()` unblocks — and `Async` can return —
only once the `Done` events recorded so far bring the counter to zero. -/
def wgWaitReturns (n : Nat) (dones : List (Fin n)) : Prop :=
  n ≤ dones.length

/-! ### Helper lemmas -/

/-- `errors.Is` of an error against itself holds. -/
lemma errorsIs_self (e : Xgo.GoError) : Xgo.errorsIs e e = true := by
  unfold Xgo.errorsIs
  simp

/-- `errors.Is` looks through a wrapping error into its cause. -/
lemma errorsIs_wrap (m : String) (c t : Xgo.GoError) (h : Xgo.errorsIs c t = true) :
    Xgo.errorsIs (.wrap m c) t = true := by
  unfold Xgo.errorsIs
  by_cases hc : Xgo.GoError.wrap m c = t <;> simp [hc, h]

/-- `errors.Is` looks into the left child of a joined error. -/
lemma errorsIs_join_left (a b t : Xgo.GoError) (h : Xgo.errorsIs a t = true) :
    Xgo.errorsIs (.join a b) t = true := by
  unfold Xgo.errorsIs
  by_cases hc : Xgo.GoError.join a b = t <;> simp [hc, h]

/-- `errors.Is` looks into the right child of a joined error. -/
lemma errorsIs_join_right (a b t : Xgo.GoError) (h : Xgo.errorsIs b t = true) :
    Xgo.errorsIs (.join a b) t = true := by
  unfold Xgo.errorsIs
  by_cases hc : Xgo.GoError.join a b = t <;> simp [hc, h]

/-- A list permuting a two-element list is one of its two arrangements. -/
lemma perm_pair_eq {α : Type} {l : List α} {a b : α} (h : l.Perm [a, b]) :
    l = [a, b] ∨ l = [b, a] := by
  have hlen : l.length = 2 := h.length_eq
  obtain ⟨x, y, rfl⟩ : ∃ x y, l = [x, y] := by
    match l, hlen with
    | [x, y], _ => exact ⟨x, y, rfl⟩
  have hm : (↑[x, y] : Multiset α) = ↑[a, b] := Multiset.coe_eq_coe.mpr h
  have hm' : (x ::ₘ {y} : Multiset α) = a ::ₘ {b} := by
    rw [← Multiset.coe_singleton, Multiset.cons_coe, ← Multiset.coe_singleton,
      Multiset.cons_coe]
    exact hm
  rcases Multiset.cons_eq_cons.mp hm' with ⟨hxa, hyb⟩ | ⟨_, cs, hycs, hbcs⟩
  · left
    rw [hxa, Multiset.singleton_inj.mp hyb]
  · obtain ⟨hya, hcs⟩ := (Multiset.singleton_eq_cons_iff _).mp hycs
    right
    subst hcs
    have hbx : b = x := by simpa using hbcs
    rw [hya, hbx]

/-- The race invariant holds at the initial state of `asyncRace`. -/
lemma raceInv_init (eA eB : Xgo.GoError) :
    Xgo.raceInv eA eB (.toRead, .toRead, none) := by
  unfold Xgo.raceInv
  refine ⟨?_, ?_, ?_, ?_, ?_⟩ <;> intros <;> simp_all

/-- The race invariant is preserved by every scheduler step. -/
lemma raceInv_step (eA eB : Xgo.GoError)
    (s : Xgo.HandlerPhase × Xgo.HandlerPhase × Option Xgo.GoError)
    (who : Bool) (h : Xgo.raceInv eA eB s) :
    Xgo.raceInv eA eB (Xgo.raceStep eA eB s who) := by
  obtain ⟨pa, pb, slot⟩ := s
  unfold Xgo.raceInv Xgo.raceStep Xgo.handlerStep at *
  obtain ⟨h1, h2, h3, h4, h5⟩ := h
  cases who <;> [cases pa; cases pb] <;> cases slot <;>
    refine ⟨?_, ?_, ?_, ?_, ?_⟩ <;> intros <;>
    simp_all [Xgo.errorsIs_self, Xgo.errorsIs_join_right] <;>
    (subst_vars
     exact Xgo.errorsIs_join_right _ _ _ (Xgo.errorsIs_self _))

/-- The race invariant holds after any schedule. -/
lemma raceInv_run (eA eB : Xgo.GoError) (sched : List Bool)
    (s : Xgo.HandlerPhase × Xgo.HandlerPhase × Option Xgo.GoError)
    (h : Xgo.raceInv eA eB s) :
    Xgo.raceInv eA eB (sched.foldl (Xgo.raceStep eA eB) s) := by
  induction sched generalizing s with
  | nil => exact h
  | cons a l ih => exact ih _ (Xgo.raceInv_step eA eB s a h)

/-! ### Claim theorems -/

/-- Claim C1: for every unit of work, `Call` completes exactly once and
returns exactly one error value (possibly nil); any panic raised during
the unit of work is fully absorbed at the `Call` boundary and never
escapes or re-panics to `Call`'s caller. -/
theorem call_completes_once (fn : Xgo.Outcome) :
    ∃ e, Xgo.Call fn = .returns e := by
  cases fn with
  | ok => exact ⟨none, rfl⟩
  | panicked p => cases p <;> exact ⟨_, rfl⟩

/-- Claim C2: a unit of work that returns normally makes `Call` return
nil. -/
theorem call_normal_returns_nil : Xgo.Call .ok = .returns none := rfl

/-- Claim C3: a unit of work that panics with an error value `e` makes
`Call` return a non-nil error whose underlying cause is `e`: here the
returned error is `e` itself, so `errors.Is` recovers it. -/
theorem call_error_payload_roundtrip (e : Xgo.GoError) :
    Xgo.Call (.panicked (.errV e)) = .returns (some e) ∧
      Xgo.errorsIs e e = true :=
  ⟨rfl, Xgo.errorsIs_self e⟩

/-- Claim C4: a unit of work that panics with a non-error payload makes
`Call` return a non-nil error whose message is the textual `%v`
rendering of the payload. -/
theorem call_nonerror_payload_message (ty v : String) :
    Xgo.Call (.panicked (.other ty v)) = .returns (some (.base v)) ∧
      (Xgo.GoError.base v).message = v :=
  ⟨rfl, rfl⟩

/-- Claim C5, counterexample against src/xgo.go's `Require`: with the
non-error payload `"boom"` (a Go string), the error returned by an
enclosing `Call` carries fmt's bad-verb rendering of the `%w` verb plus
the caller location, not the plain `%v` text `"boom"`; and with the
error payload `errors.New("boom")`, the returned error is a wrapper
around the payload, not the payload error itself. -/
theorem require_claim_counterexample :
    (match Xgo.Call (Xgo.Require false (.other "string" "boom") "main.go:42") with
      | .returns (some e) => e.message
      | _ => "") ≠ "boom" ∧
    Xgo.Call (Xgo.Require false (.errV (.base "boom")) "main.go:42") ≠
      .returns (some (.base "boom")) := by
  constructor <;> decide

/-- Claim C5 as amended: `Require` with a true condition never panics;
with a false condition it always panics with an error that appends the
caller's source location, so an enclosing `Call` returns a non-nil
error derived from the payload: a payload that is already an error `e`
is wrapped (via `%w`) so that `errors.Is` recovers `e`, while a
non-error payload yields an error whose message is fmt's bad-verb
rendering `%!w(type=value)` followed by the location, not the plain
`%v` formatting of the payload. -/
theorem require_call_behavior (loc : String) :
    (∀ p, Xgo.Require true p loc = .ok) ∧
    (∀ e0 : Xgo.GoError,
      Xgo.Call (Xgo.Require false (.errV e0) loc) =
        .returns (some (.wrap (e0.message ++ "\n\t" ++ loc) e0)) ∧
      Xgo.errorsIs (.wrap (e0.message ++ "\n\t" ++ loc) e0) e0 = true) ∧
    (∀ ty v, Xgo.Call (Xgo.Require false (.other ty v) loc) =
      .returns (some (.base ("%!w(" ++ ty ++ "=" ++ v ++ ")" ++ "\n\t" ++ loc)))) := by
  refine ⟨fun p => rfl, fun e0 => ⟨rfl, ?_⟩, fun ty v => rfl⟩
  exact Xgo.errorsIs_wrap _ _ _ (Xgo.errorsIs_self e0)

/-- Claim C6: when one unit of work panics with an error and the other
completes normally, `Async` returns a non-nil error referencing the
faulting unit's error, whichever order the two deferred handlers run
in; the successful unit contributes nothing. -/
theorem async_single_fault (l : List Xgo.Outcome) (eA : Xgo.GoError)
    (h : l.Perm [.panicked (.errV eA), .ok]) :
    ∃ e, Xgo.Async l = some e ∧ Xgo.errorsIs e eA = true := by
  rcases Xgo.perm_pair_eq h with rfl | rfl
  · exact ⟨eA, rfl, Xgo.errorsIs_self eA⟩
  · exact ⟨eA, rfl, Xgo.errorsIs_self eA⟩

/-- Witness for C6 at a concrete fault. -/
theorem async_single_fault_witness :
    ∃ e, Xgo.Async [.panicked (.errV (.base "a")), .ok] = some e ∧
      Xgo.errorsIs e (.base "a") = true :=
  async_single_fault _ _ (List.Perm.refl _)

/-- Claim C7, counterexample against src/xgo.go's `Async`: the two
deferred `Catch(&err)` handlers access the shared `err` slot with no
synchronization, so in the complete execution where both handlers read
the slot (still nil) before either writes, the first fault's store is
clobbered by the second: the call returns exactly `errors.New("b")` and
the fault `errors.New("a")` is not recoverable from it — so under the
code's `errors.Join` merge (the spec's policy (a)) "both distinct faults
are recoverable" fails. -/
theorem async_both_faults_counterexample :
    Xgo.asyncRaceDone (.base "a") (.base "b") [false, true, false, true] ∧
    (Xgo.asyncRace (.base "a") (.base "b")
        [false, true, false, true]).2.2 = some (.base "b") ∧
    Xgo.errorsIs (.base "b") (.base "a") = false :=
  ⟨⟨rfl, rfl⟩, rfl, by decide⟩

/-- Claim C7 as amended: when both units of work panic with errors `eA`
and `eB`, every complete execution of `Async` returns a non-nil error
referencing at least one of the two faults, but which faults survive is
nondeterministic, because the two deferred `Catch` handlers perform an
unsynchronized read-modify-write on the one shared `err` slot: when the
handlers' critical sections do not interleave, the `errors.Join` merge
makes both faults recoverable from the returned error (multi-unwrap
inspection), while when both handlers read the slot before either
writes, one store is lost and the returned error is exactly the other
single fault. -/
theorem async_both_faults_race (eA eB : Xgo.GoError) (sched : List Bool)
    (h : Xgo.asyncRaceDone eA eB sched) :
    (∃ e, (Xgo.asyncRace eA eB sched).2.2 = some e ∧
        (Xgo.errorsIs e eA = true ∨ Xgo.errorsIs e eB = true)) ∧
    (∃ e, (Xgo.asyncRace eA eB [false, false, true, true]).2.2 = some e ∧
        Xgo.errorsIs e eA = true ∧ Xgo.errorsIs e eB = true) ∧
    (Xgo.asyncRace eA eB [false, true, false, true]).2.2 = some eB := by
  obtain ⟨hda, _⟩ := h
  refine ⟨?_, ?_, rfl⟩
  · have hinv : Xgo.raceInv eA eB (Xgo.asyncRace eA eB sched) :=
      Xgo.raceInv_run eA eB sched _ (Xgo.raceInv_init eA eB)
    obtain ⟨h1, _, _, h4, _⟩ := hinv
    cases hslot : (Xgo.asyncRace eA eB sched).2.2 with
    | none => exact absurd hslot (h4 hda)
    | some e => exact ⟨e, rfl, h1 e hslot⟩
  · exact ⟨.join eA eB, rfl,
      Xgo.errorsIs_join_left _ _ _ (Xgo.errorsIs_self eA),
      Xgo.errorsIs_join_right _ _ _ (Xgo.errorsIs_self eB)⟩

/-- Witness for the amended C7 at two concrete distinct faults under
the non-interleaved schedule. -/
theorem async_both_faults_race_witness :
    ∃ e, (Xgo.asyncRace (.base "a") (.base "b")
        [false, false, true, true]).2.2 = some e ∧
      (Xgo.errorsIs e (.base "a") = true ∨
        Xgo.errorsIs e (.base "b") = true) :=
  (async_both_faults_race (.base "a") (.base "b")
    [false, false, true, true] ⟨rfl, rfl⟩).1

/-- Claim C8: strict join.  Every goroutine body completes (its deferred
`Catch` absorbs any panic, so the deferred `wg.Done` always runs), each
goroutine decrements the wait-group exactly once, and `wg.Wait` — hence
`Async`'s return — unblocks only once the counter reaches zero, which
forces every one of the `n` launched goroutines to have finished. -/
theorem async_strict_join (n : Nat) (dones : List (Fin n))
    (h1 : dones.Nodup) (h2 : Xgo.wgWaitReturns n dones) :
    (∀ o slot, (Xgo.Catch (Xgo.outcomeState o) (some slot)).1 = .noPanic) ∧
      ∀ i : Fin n, i ∈ dones := by
  constructor
  · intro o slot
    cases o with
    | ok => rfl
    | panicked p => cases p <;> rfl
  · intro i
    have h2' : n ≤ dones.length := h2
    have hcard : dones.toFinset.card = dones.length :=
      List.toFinset_card_of_nodup h1
    have hle : dones.toFinset.card ≤ Fintype.card (Fin n) :=
      Finset.card_le_univ _
    have hft : Fintype.card (Fin n) = n := Fintype.card_fin n
    have huniv : dones.toFinset = Finset.univ :=
      Finset.eq_univ_of_card _ (by omega)
    have hmem : i ∈ dones.toFinset := by
      rw [huniv]
      exact Finset.mem_univ i
    exact List.mem_toFinset.mp hmem

/-- Witness for C8 with two goroutines whose Done events both arrived. -/
theorem async_strict_join_witness :
    (0 : Fin 2) ∈ ([0, 1] : List (Fin 2)) :=
  (async_strict_join 2 [0, 1] (by decide) (Nat.le_refl 2)).2 0

/-- Claim C9: a unit of work that panics with a nil payload makes `Call`
return nil — the recovered value fails the `r != nil` guard, the panic
is still absorbed, and the outcome is indistinguishable from normal
completion. -/
theorem call_nil_panic_absorbed :
    Xgo.Call (.panicked .nilV) = .returns none ∧
      Xgo.Call (.panicked .nilV) = Xgo.Call .ok :=
  ⟨rfl, rfl⟩

/-- Claim C10: `Catch` invoked as a deferred handler with a nil error
pointer while a panic is in flight still absorbs the panic (the panic
state is cleared, so the function returns normally) but writes nothing:
the captured fault is silently discarded. -/
theorem catch_nil_pointer_discards (p : Xgo.PanicValue) :
    Xgo.Catch (.inFlight p) none = (.noPanic, none) := by
  cases p <;> rfl

end Xgo
